import Mathlib

/-!
Shallow embedding of `sdverse_products.py`: document/URL text extraction,
the Ollama query engine, and the per-source processing orchestrator.
External effects (HTTP fetch, subprocess execution, library parsing) are
modelled as explicit inputs; the Python functions become total Lean
functions over those inputs.
-/

namespace Sdverse

/-- `MODEL` configuration constant (`MODEL = "llama3"`). -/
def MODEL : String := "llama3"

/-- The fixed question list (`QUESTIONS` in the source). -/
def QUESTIONS : List String :=
  ["provide short description of the product or services?",
   "provide long description of the product or services?"]

/-- Python `str.strip()` (no argument): remove leading and trailing
whitespace, whitespace modelled by `Char.isWhitespace`. -/
def pyStrip (s : String) : String :=
  String.mk (((s.data.dropWhile Char.isWhitespace).reverse.dropWhile
    Char.isWhitespace).reverse)

/-- Python `str.lower()` on ASCII extensions, character by character. -/
def pyLower (s : String) : String :=
  String.mk (s.data.map Char.toLower)

/-! ## Query engine (`ask_ollama`) -/

/-- Outcome of the `subprocess.run(["ollama", "run", MODEL], ...)` call:
either the process completed with an exit code, stdout and stderr, or the
timeout expired (`subprocess.TimeoutExpired`), or some other exception was
raised (`except Exception as e`), carrying its message. -/
inductive ProcOutcome where
  | completed (exitCode : Int) (stdout stderr : String)
  | timedOut
  | failed (msg : String)
deriving DecidableEq

/-- The prompt built by `ask_ollama`:
`f"Context:\n{context_text}\n\nQuestion: {question}"`. -/
def build_prompt (question context_text : String) : String :=
  "Context:\n" ++ context_text ++ "\n\nQuestion: " ++ question

/-- `ask_ollama(question, context_text)`, with the subprocess call modelled
by `runModel`, a function from the full stdin (the prompt) to the process
outcome. Mirrors the source: non-zero return code yields
`f"Error: {result.stderr}"`, success yields `result.stdout.strip()`,
timeout yields `"Error: Request timed out"`, any other exception yields
`f"Error: {str(e)}"`. -/
def ask_ollama (question context_text : String) (runModel : String → ProcOutcome) : String :=
  match runModel (build_prompt question context_text) with
  | ProcOutcome.completed exitCode out err =>
      if exitCode ≠ 0 then "Error: " ++ err else pyStrip out
  | ProcOutcome.timedOut => "Error: Request timed out"
  | ProcOutcome.failed msg => "Error: " ++ msg

/-! ## URL slugification (`slugify_url`) -/

/-- The character class `[a-zA-Z0-9_]` kept by
`re.sub(r"[^a-zA-Z0-9_]+", "", slug)`. -/
def isSlugChar (c : Char) : Bool :=
  c.isAlpha || c.isDigit || c == '_'

/-- Remove every leading and trailing occurrence of `c`
(Python `str.strip("_")`). -/
def stripChar (c : Char) (l : List Char) : List Char :=
  ((l.dropWhile (fun a => a == c)).reverse.dropWhile (fun a => a == c)).reverse

/-- Modelled from the spec: `urllib.parse.urlparse` (standard library, not
part of this repository), restricted to `scheme://host/path` URLs without
query, params or fragment: the pair (netloc, path). -/
def urlHostPath (url : String) : String × String :=
  match url.data.dropWhile (fun c => c ≠ ':') with
  | ':' :: '/' :: '/' :: rest =>
      (String.mk (rest.takeWhile (fun c => c ≠ '/')),
       String.mk (rest.dropWhile (fun c => c ≠ '/')))
  | _ => ("", url)

/-- `slugify_url(url)`: host with `.` replaced by `_`, concatenated with the
path with `/` replaced by `_`; characters outside `[a-zA-Z0-9_]` removed;
leading/trailing underscores stripped; empty result falls back to
`"link"`. -/
def slugify_url (url : String) : String :=
  let hp := urlHostPath url
  let slug := hp.1.data.map (fun c => if c = '.' then '_' else c) ++
              hp.2.data.map (fun c => if c = '/' then '_' else c)
  let kept := slug.filter isSlugChar
  let stripped := String.mk (stripChar '_' kept)
  if stripped = "" then "link" else stripped

/-! ## File extractors -/

/-- The parseable content behind a file path, as the third-party parsers
expose it: a PDF is a list of pages (`page.extract_text()` may yield no
text, hence `Option`); a PPTX is a list of slides, each a list of shapes
where a shape may lack a `text` attribute; a DOCX is a list of paragraph
texts. -/
inductive FileContent where
  | pdf (pages : List (Option String))
  | pptx (slides : List (List (Option String)))
  | docx (paras : List String)
deriving DecidableEq

/-- `extract_text_from_pdf`: per-page `page.extract_text() or ""`, joined by
`"\n"`. -/
def extract_text_from_pdf (pages : List (Option String)) : String :=
  String.intercalate "\n" (pages.map (fun p => p.getD ""))

/-- `extract_text_from_pptx`: the text of every shape that has a `text`
attribute, slide order then shape order, joined by `"\n"`. -/
def extract_text_from_pptx (slides : List (List (Option String))) : String :=
  String.intercalate "\n" ((slides.map (fun sl => sl.filterMap id)).flatten)

/-- `extract_text_from_docx`: paragraph texts in document order joined by
`"\n"`. -/
def extract_text_from_docx (paras : List String) : String :=
  String.intercalate "\n" paras

/-- `extract_text_from_file`: dispatch on `file_path.suffix.lower()`; an
unrecognised extension raises `ValueError(f"Unsupported file type: {ext}")`,
modelled as `Except.error`. Handing a parser a file of the wrong actual
format raises inside the parser, also modelled as `Except.error`. -/
def extract_text_from_file (suffix : String) (content : FileContent) : Except String String :=
  let ext := pyLower suffix
  if ext = ".pdf" then
    match content with
    | FileContent.pdf pages => Except.ok (extract_text_from_pdf pages)
    | _ => Except.error "parse failure"
  else if ext = ".pptx" then
    match content with
    | FileContent.pptx slides => Except.ok (extract_text_from_pptx slides)
    | _ => Except.error "parse failure"
  else if ext = ".docx" then
    match content with
    | FileContent.docx paras => Except.ok (extract_text_from_docx paras)
    | _ => Except.error "parse failure"
  else
    Except.error ("Unsupported file type: " ++ ext)

/-! ## URL extractor (`extract_text_from_url`) -/

/-- A parsed HTML tree as BeautifulSoup exposes it: elements with a tag name
and children, and text nodes (`NavigableString`s). -/
inductive Node where
  | elem (tag : String) (children : List Node)
  | str (s : String)

mutual

/-- The descendant text fragments of a node, in document order
(BeautifulSoup `strings`). -/
def nodeTexts : Node → List String
  | Node.str s => [s]
  | Node.elem _ cs => listTexts cs

/-- `nodeTexts` over a forest. -/
def listTexts : List Node → List String
  | [] => []
  | n :: ns => nodeTexts n ++ listTexts ns

end

/-- BeautifulSoup `tag.get_text()`: all descendant strings concatenated
(default separator `""`). -/
def getText (n : Node) : String :=
  String.join (nodeTexts n)

/-- BeautifulSoup `tag.get_text(strip=True)`: each descendant string
stripped, empty results skipped, the rest concatenated with separator
`""`. -/
def getTextStrip (n : Node) : String :=
  String.join (((nodeTexts n).map pyStrip).filter (fun t => t ≠ ""))

mutual

/-- `tag.extract()` applied to every element whose tag is in `bad`
(the `for tag in soup(["script", "style", "noscript"]): tag.extract()`
loop): the node with all such subtrees removed, or `none` if the node
itself is removed. -/
def scrubNode (bad : List String) : Node → Option Node
  | Node.str s => some (Node.str s)
  | Node.elem t cs =>
      if t ∈ bad then none else some (Node.elem t (scrubList bad cs))

/-- `scrubNode` over a forest. -/
def scrubList (bad : List String) : List Node → List Node
  | [] => []
  | n :: ns =>
      match scrubNode bad n with
      | some m => m :: scrubList bad ns
      | none => scrubList bad ns

end

mutual

/-- BeautifulSoup `find_all(tags)` restricted to one node: matching
elements in document order (an element precedes its descendants, and
matching descendants of a match are also returned). -/
def findAllNode (tags : List String) : Node → List Node
  | Node.str _ => []
  | Node.elem t cs =>
      (if t ∈ tags then [Node.elem t cs] else []) ++ findAllList tags cs

/-- `findAllNode` over a forest. -/
def findAllList (tags : List String) : List Node → List Node
  | [] => []
  | n :: ns => findAllNode tags n ++ findAllList tags ns

end

/-- BeautifulSoup `soup.title`: the first `title` element in document
order, if any. -/
def findTitle (roots : List Node) : Option Node :=
  (findAllList ["title"] roots).head?

/-- The tag list of the `soup.find_all(["h1",...,"li"])` call. -/
def contentTags : List String :=
  ["h1", "h2", "h3", "h4", "h5", "h6", "p", "li"]

/-- Python truthiness of a BeautifulSoup node, as `if soup.title:` tests
it: a `Tag`'s truthiness falls back to `Tag.__len__`, the number of
children, so a childless tag is falsy; a `NavigableString` is falsy when
empty. -/
def nodeTruthy : Node → Bool
  | Node.elem _ cs => !cs.isEmpty
  | Node.str s => !(s == "")

/-- The HTML-processing body of `extract_text_from_url` (lines 78-94):
scripts/styles/noscripts removed, then the title's raw text — appended
untrimmed when `if soup.title:` is truthy, i.e. when a title element with
at least one child exists — then `get_text(strip=True)` of every
heading/paragraph/list-item, kept only when non-empty; joined by
`"\n"`. -/
def extract_text_from_html (doc : List Node) : String :=
  let cleaned := scrubList ["script", "style", "noscript"] doc
  let titleParts : List String :=
    match findTitle cleaned with
    | some n => if nodeTruthy n then [getText n] else []
    | none => []
  let bodyParts :=
    ((findAllList contentTags cleaned).map getTextStrip).filter (fun t => t ≠ "")
  String.intercalate "\n" (titleParts ++ bodyParts)

/-- Outcome of `requests.get(url, timeout=10)`: an HTTP response with a
status code and (parsed) HTML body, or a raised network error. -/
inductive FetchResult where
  | success (status : Nat) (doc : List Node)
  | netError (msg : String)

/-- `extract_text_from_url`, with the fetch modelled by its outcome. The
`try`/`except` returns `""` on any exception: a network error, or
`response.raise_for_status()`, which raises exactly for status codes
400-599. -/
def extract_text_from_url (r : FetchResult) : String :=
  match r with
  | FetchResult.netError _ => ""
  | FetchResult.success status doc =>
      if 400 ≤ status ∧ status ≤ 599 then ""
      else extract_text_from_html doc

/-! ## Processing orchestrator (`process_file`, `process_url`) -/

/-- The persisted record: `{"source": ..., "qa": {question: answer, ...}}`.
`qa` is an insertion-ordered mapping (Python `dict`), embedded as an
association list in insertion order. -/
structure ResultDocument where
  source : String
  qa : List (String × String)
deriving DecidableEq

/-- Python `dict` assignment `d[k] = v` on an insertion-ordered
association list: overwrite in place if the key exists, else append. -/
def dictInsert (d : List (String × String)) (k v : String) : List (String × String) :=
  if d.any (fun p => p.1 == k) then
    d.map (fun p => if p.1 == k then (k, v) else p)
  else d ++ [(k, v)]

/-- The `for q in QUESTIONS: qa_results[q] = ask_ollama(q, text)` loop;
`ask` is the answer oracle `fun q text => ask_ollama q text ...`. -/
def runQuestions (text : String) (ask : String → String → String) : List (String × String) :=
  QUESTIONS.foldl (fun d q => dictInsert d q (ask q text)) []

/-- `process_file(file_path, output_folder)`: extraction outcome passed in
(`Except.error` = an exception the outer `try` catches). Returns the
written file, as `(relative output path, document)`, or `none` when
nothing is written, together with the list of questions sent to the
model. -/
def process_file (fileName fileStem : String) (extracted : Except String String)
    (ask : String → String → String) : Option (String × ResultDocument) × List String :=
  match extracted with
  | Except.error _ => (none, [])
  | Except.ok text =>
      if pyStrip text = "" then (none, [])
      else
        (some (fileStem ++ ".json",
               { source := fileName, qa := runQuestions text ask }), QUESTIONS)

/-- `process_url(url, output_folder)`: fetch outcome passed in; same shape
of result as `process_file`. -/
def process_url (url : String) (fetched : FetchResult)
    (ask : String → String → String) : Option (String × ResultDocument) × List String :=
  let text := extract_text_from_url fetched
  if pyStrip text = "" then (none, [])
  else
    (some (slugify_url url ++ ".json",
           { source := url, qa := runQuestions text ask }), QUESTIONS)

/-! ## Theorems -/

/-- C5: on timeout the query returns the error-tagged answer
`"Error: Request timed out"` rather than raising, and on a non-zero exit
status it returns the error-tagged answer `"Error: " ++ stderr`, which
contains the process's standard-error output; `ask_ollama` is a total
function, so no exception escapes the query engine. -/
theorem query_timeout_and_exit_errors (question context_text : String)
    (runModel : String → ProcOutcome) :
    (runModel (build_prompt question context_text) = ProcOutcome.timedOut →
      ask_ollama question context_text runModel = "Error: Request timed out") ∧
    (∀ exitCode out err, exitCode ≠ 0 →
      runModel (build_prompt question context_text) = ProcOutcome.completed exitCode out err →
      ask_ollama question context_text runModel = "Error: " ++ err) := by
  constructor
  · intro h
    simp [ask_ollama, h]
  · intro exitCode out err hne h
    simp [ask_ollama, h, hne]

/-- Witness for C5 at a concrete question, context and model process. -/
theorem query_timeout_and_exit_errors_witness :
    ask_ollama "q" "c" (fun _ => ProcOutcome.timedOut) = "Error: Request timed out" ∧
    ask_ollama "q" "c" (fun _ => ProcOutcome.completed 1 "out" "boom") = "Error: " ++ "boom" := by
  constructor
  · exact (query_timeout_and_exit_errors "q" "c" (fun _ => ProcOutcome.timedOut)).1 rfl
  · exact (query_timeout_and_exit_errors "q" "c"
      (fun _ => ProcOutcome.completed 1 "out" "boom")).2 1 "out" "boom" (by decide) rfl

/-- C6: the prompt is the fixed `"Context:"` header, the context text, a
blank line, and the `"Question:"` header with the question; on a successful
(zero) exit the answer is exactly the process's standard output stripped of
leading and trailing whitespace. -/
theorem prompt_and_success_answer (question context_text out err : String)
    (runModel : String → ProcOutcome) :
    build_prompt question context_text =
      "Context:\n" ++ context_text ++ "\n\nQuestion: " ++ question ∧
    (runModel (build_prompt question context_text) = ProcOutcome.completed 0 out err →
      ask_ollama question context_text runModel = pyStrip out) := by
  refine ⟨rfl, fun h => ?_⟩
  simp [ask_ollama, h]

/-- Witness for C6 at a concrete question, context and model process. -/
theorem prompt_and_success_answer_witness :
    build_prompt "q" "c" = "Context:\n" ++ "c" ++ "\n\nQuestion: " ++ "q" ∧
    ask_ollama "q" "c" (fun _ => ProcOutcome.completed 0 " ans " "") = "ans" := by
  constructor
  · exact (prompt_and_success_answer "q" "c" " ans " ""
      (fun _ => ProcOutcome.completed 0 " ans " "")).1
  · have h := (prompt_and_success_answer "q" "c" " ans " ""
      (fun _ => ProcOutcome.completed 0 " ans " "")).2 rfl
    rw [h]
    decide

/-- C10: whenever the model process does not complete with exit code 0 —
timeout, non-zero exit, or any other exception such as the executable
disappearing — the answer is a string beginning with `"Error:"`; since
`ask_ollama` is total, a caller never observes a raised exception. -/
theorem ask_ollama_error_tagged_total (question context_text : String)
    (runModel : String → ProcOutcome)
    (h : ∀ out err, runModel (build_prompt question context_text) ≠ ProcOutcome.completed 0 out err) :
    ∃ rest, ask_ollama question context_text runModel = "Error:" ++ rest := by
  cases hm : runModel (build_prompt question context_text) with
  | completed exitCode out err =>
    by_cases hc : exitCode = 0
    · subst hc
      exact absurd hm (h out err)
    · refine ⟨" " ++ err, ?_⟩
      simp only [ask_ollama, hm]
      rw [if_pos hc, ← String.append_assoc]
      rfl
  | timedOut =>
    refine ⟨" Request timed out", ?_⟩
    simp [ask_ollama, hm]
  | failed msg =>
    refine ⟨" " ++ msg, ?_⟩
    simp only [ask_ollama, hm]
    rw [← String.append_assoc]
    rfl

/-- Witness for C10 at a concrete model process that times out. -/
theorem ask_ollama_error_tagged_total_witness :
    ∃ rest, ask_ollama "q" "c" (fun _ => ProcOutcome.timedOut) = "Error:" ++ rest :=
  ask_ollama_error_tagged_total "q" "c" (fun _ => ProcOutcome.timedOut)
    (fun _ _ hyp => ProcOutcome.noConfusion hyp)

/-- C3: a network error, or an HTTP status in the 400-599 error range that
`raise_for_status` flags (e.g. 404), makes URL extraction return the empty
string; `extract_text_from_url` is total, so no exception reaches the
caller. -/
theorem url_error_yields_empty :
    (∀ msg, extract_text_from_url (FetchResult.netError msg) = "") ∧
    (∀ status doc, 400 ≤ status → status ≤ 599 →
      extract_text_from_url (FetchResult.success status doc) = "") := by
  refine ⟨fun msg => rfl, fun status doc h1 h2 => ?_⟩
  simp [extract_text_from_url, h1, h2]

/-- Witness for C3: HTTP 404 with a non-empty body still extracts `""`. -/
theorem url_error_yields_empty_witness :
    extract_text_from_url (FetchResult.success 404 [Node.elem "p" [Node.str "x"]]) = "" :=
  url_error_yields_empty.2 404 [Node.elem "p" [Node.str "x"]] (by decide) (by decide)

/-- C4: when the extracted text is empty or whitespace-only, both
`process_file` and `process_url` write no output file (result `none`) and
send no question to the model (empty invocation list). -/
theorem empty_text_is_noop (fileName fileStem url text : String)
    (ask : String → String → String) (fetched : FetchResult)
    (hf : pyStrip text = "") (hu : pyStrip (extract_text_from_url fetched) = "") :
    process_file fileName fileStem (Except.ok text) ask = (none, []) ∧
    process_url url fetched ask = (none, []) := by
  constructor
  · simp [process_file, hf]
  · simp [process_url, hu]

/-- Witness for C4 at whitespace-only file text and a failed fetch. -/
theorem empty_text_is_noop_witness :
    process_file "d.pdf" "d" (Except.ok " \n ") (fun _ _ => "a") = (none, []) ∧
    process_url "https://e.com" (FetchResult.netError "down") (fun _ _ => "a") = (none, []) :=
  empty_text_is_noop "d.pdf" "d" "https://e.com" " \n " (fun _ _ => "a")
    (FetchResult.netError "down") (by decide) (by decide)

/-- The question loop produces one entry per question, keyed by the
question, in list order. -/
theorem runQuestions_eq (text : String) (ask : String → String → String) :
    runQuestions text ask = QUESTIONS.map (fun q => (q, ask q text)) := by
  simp [runQuestions, QUESTIONS, dictInsert]

/-- C1: for any source whose extracted text is non-empty after stripping,
the resulting record's `qa` mapping has exactly one entry per configured
question (2 in this configuration), keyed by the exact question strings, in
the fixed `QUESTIONS` order; the same holds on every run since the
functions are deterministic. -/
theorem qa_entries_match_questions (fileName fileStem text url : String)
    (ask : String → String → String) (fetched : FetchResult)
    (hf : pyStrip text ≠ "") (hu : pyStrip (extract_text_from_url fetched) ≠ "") :
    (∃ doc, (process_file fileName fileStem (Except.ok text) ask).1 =
        some (fileStem ++ ".json", doc) ∧
      doc.qa = QUESTIONS.map (fun q => (q, ask q text)) ∧
      doc.qa.map Prod.fst = QUESTIONS) ∧
    (∃ doc, (process_url url fetched ask).1 = some (slugify_url url ++ ".json", doc) ∧
      doc.qa.map Prod.fst = QUESTIONS) ∧
    QUESTIONS.length = 2 := by
  refine ⟨⟨{ source := fileName, qa := runQuestions text ask }, ?_, runQuestions_eq text ask, ?_⟩,
    ⟨{ source := url, qa := runQuestions (extract_text_from_url fetched) ask }, ?_, ?_⟩, rfl⟩
  · simp [process_file, hf]
  · rw [runQuestions_eq, List.map_map]
    rfl
  · simp [process_url, hu]
  · rw [runQuestions_eq, List.map_map]
    rfl

/-- Witness for C1 at a concrete file source and a concrete fetched page. -/
theorem qa_entries_match_questions_witness :
    (∃ doc, (process_file "a.pdf" "a" (Except.ok "hello") (fun q _ => q ++ "!")).1 =
        some ("a" ++ ".json", doc) ∧
      doc.qa = QUESTIONS.map (fun q => (q, (fun (q : String) (_ : String) => q ++ "!") q "hello")) ∧
      doc.qa.map Prod.fst = QUESTIONS) ∧
    (∃ doc, (process_url "https://e.com" (FetchResult.success 200 [Node.elem "p" [Node.str "hi"]])
        (fun q _ => q ++ "!")).1 =
        some (slugify_url "https://e.com" ++ ".json", doc) ∧
      doc.qa.map Prod.fst = QUESTIONS) ∧
    QUESTIONS.length = 2 :=
  qa_entries_match_questions "a.pdf" "a" "hello" "https://e.com" (fun q _ => q ++ "!")
    (FetchResult.success 200 [Node.elem "p" [Node.str "hi"]]) (by decide) (by decide)

/-- A `head?` element surviving `dropWhile p` falsifies `p`. -/
theorem head?_dropWhile_false {p : Char → Bool} {l : List Char} {a : Char}
    (h : (l.dropWhile p).head? = some a) : p a = false := by
  have hm := List.head?_dropWhile_not p l
  rw [h] at hm
  exact hm

/-- `dropWhile` only removes from the front, so a non-empty result keeps
the last element. -/
theorem getLast?_dropWhile (p : Char → Bool) (l : List Char)
    (h : l.dropWhile p ≠ []) : (l.dropWhile p).getLast? = l.getLast? := by
  obtain ⟨t, ht⟩ := List.dropWhile_suffix (l := l) p
  conv_rhs => rw [← ht]
  rw [List.getLast?_append_of_ne_nil t h]

/-- `stripChar` only removes elements. -/
theorem stripChar_mem {c : Char} {l : List Char} :
    ∀ a ∈ stripChar c l, a ∈ l := by
  intro a ha
  unfold stripChar at ha
  rw [List.mem_reverse] at ha
  have h1 : a ∈ (l.dropWhile (fun x => x == c)).reverse :=
    List.dropWhile_subset _ ha
  rw [List.mem_reverse] at h1
  exact List.dropWhile_subset _ h1

/-- The first element after `stripChar c` is not `c`. -/
theorem stripChar_head {c : Char} {l : List Char} {a : Char}
    (h : (stripChar c l).head? = some a) : a ≠ c := by
  unfold stripChar at h
  rw [List.head?_reverse] at h
  have hne : (l.dropWhile (fun x => x == c)).reverse.dropWhile (fun x => x == c) ≠ [] := by
    intro hnil
    rw [hnil] at h
    exact Option.noConfusion h
  rw [getLast?_dropWhile _ _ hne, List.getLast?_reverse] at h
  simpa using head?_dropWhile_false h

/-- The last element after `stripChar c` is not `c`. -/
theorem stripChar_getLast {c : Char} {l : List Char} {a : Char}
    (h : (stripChar c l).getLast? = some a) : a ≠ c := by
  unfold stripChar at h
  rw [List.getLast?_reverse] at h
  simpa using head?_dropWhile_false h

/-- C7: slugification sends `https://example.com/a/b` to `example_com_a_b`,
`https://x.y/` to `x_y`, and an all-punctuation host/path to `link`; and for
every URL the slug is non-empty, made only of `[A-Za-z0-9_]` characters, and
neither starts nor ends with an underscore. -/
theorem slugify_spec :
    slugify_url "https://example.com/a/b" = "example_com_a_b" ∧
    slugify_url "https://x.y/" = "x_y" ∧
    slugify_url "https://!!!/%%%" = "link" ∧
    ∀ url, slugify_url url ≠ "" ∧
      (∀ c ∈ (slugify_url url).data, isSlugChar c = true) ∧
      (∀ a, (slugify_url url).data.head? = some a → a ≠ '_') ∧
      (∀ a, (slugify_url url).data.getLast? = some a → a ≠ '_') := by
  refine ⟨by decide, by decide, by decide, fun url => ?_⟩
  obtain ⟨kept, hkept⟩ : ∃ kept,
      (((urlHostPath url).1.data.map (fun c => if c = '.' then '_' else c)) ++
        ((urlHostPath url).2.data.map (fun c => if c = '/' then '_' else c))).filter
          isSlugChar = kept := ⟨_, rfl⟩
  have hslug : slugify_url url =
      (if String.mk (stripChar '_' kept) = "" then "link"
       else String.mk (stripChar '_' kept)) := by
    simp only [slugify_url]
    rw [hkept]
  have hmem : ∀ a ∈ kept, isSlugChar a = true := by
    intro a ha
    rw [← hkept] at ha
    exact (List.mem_filter.mp ha).2
  rw [hslug]
  by_cases h : String.mk (stripChar '_' kept) = ""
  · rw [if_pos h]
    refine ⟨by decide, by decide, ?_, ?_⟩
    · intro a ha
      have h' : some 'l' = some a := ha
      cases h'
      decide
    · intro a ha
      have h' : some 'k' = some a := ha
      cases h'
      decide
  · rw [if_neg h]
    refine ⟨h, ?_, ?_, ?_⟩
    · intro cch hc
      exact hmem cch (stripChar_mem cch hc)
    · intro a ha
      exact stripChar_head ha
    · intro a ha
      exact stripChar_getLast ha

/-- Witness for C7's universal part at a concrete URL. -/
theorem slugify_spec_witness :
    slugify_url "https://a.b/c" ≠ "" ∧ isSlugChar 'a' = true ∧
    ('a' : Char) ≠ '_' ∧ ('c' : Char) ≠ '_' := by
  have h := slugify_spec.2.2.2 "https://a.b/c"
  exact ⟨h.1, h.2.1 'a' (by decide), h.2.2.1 'a' (by decide), h.2.2.2 'c' (by decide)⟩

/-- C8: file dispatch lowercases the extension, so `.pdf`/`.pptx`/`.docx`
in any letter case reach their extractors, and any other extension yields
the "Unsupported file type" error naming the (lowercased) extension. -/
theorem file_dispatch_case_insensitive (suffix : String) (content : FileContent) :
    (pyLower suffix = ".pdf" → ∀ pages,
      extract_text_from_file suffix (FileContent.pdf pages) =
        Except.ok (extract_text_from_pdf pages)) ∧
    (pyLower suffix = ".pptx" → ∀ slides,
      extract_text_from_file suffix (FileContent.pptx slides) =
        Except.ok (extract_text_from_pptx slides)) ∧
    (pyLower suffix = ".docx" → ∀ paras,
      extract_text_from_file suffix (FileContent.docx paras) =
        Except.ok (extract_text_from_docx paras)) ∧
    (pyLower suffix ∉ [".pdf", ".pptx", ".docx"] →
      extract_text_from_file suffix content =
        Except.error ("Unsupported file type: " ++ pyLower suffix)) := by
  refine ⟨fun h pages => ?_, fun h slides => ?_, fun h paras => ?_, fun h => ?_⟩
  · simp [extract_text_from_file, h]
  · simp [extract_text_from_file, h]
  · simp [extract_text_from_file, h]
  · simp only [List.mem_cons, List.mem_singleton, not_or] at h
    simp [extract_text_from_file, h.1, h.2.1, h.2.2]

/-- Witness for C8 at mixed-case and unsupported extensions. -/
theorem file_dispatch_case_insensitive_witness :
    extract_text_from_file ".PdF" (FileContent.pdf [some "x"]) =
      Except.ok (extract_text_from_pdf [some "x"]) ∧
    extract_text_from_file ".PPTX" (FileContent.pptx [[some "s"]]) =
      Except.ok (extract_text_from_pptx [[some "s"]]) ∧
    extract_text_from_file ".Docx" (FileContent.docx ["p"]) =
      Except.ok (extract_text_from_docx ["p"]) ∧
    extract_text_from_file ".txt" (FileContent.docx ["p"]) =
      Except.error ("Unsupported file type: " ++ pyLower ".txt") := by
  refine ⟨?_, ?_, ?_, ?_⟩
  · exact (file_dispatch_case_insensitive ".PdF" (FileContent.pdf [some "x"])).1
      (by decide) [some "x"]
  · exact (file_dispatch_case_insensitive ".PPTX" (FileContent.pptx [[some "s"]])).2.1
      (by decide) [[some "s"]]
  · exact (file_dispatch_case_insensitive ".Docx" (FileContent.docx ["p"])).2.2.1
      (by decide) ["p"]
  · exact (file_dispatch_case_insensitive ".txt" (FileContent.docx ["p"])).2.2.2
      (by decide)

/-- The character data of `String.intercalate.go`. -/
theorem intercalate_go_data (s : String) :
    ∀ (as : List String) (acc : String),
      (String.intercalate.go acc s as).data =
        acc.data ++ (as.map (fun a => s.data ++ a.data)).flatten
  | [], acc => by simp [String.intercalate.go]
  | a :: as, acc => by
    rw [String.intercalate.go, intercalate_go_data s as]
    simp [List.append_assoc]

/-- `List.intercalate` on a cons, unfolded. -/
theorem list_intercalate_cons {α : Type} (sep : List α) (x : List α) (xs : List (List α)) :
    List.intercalate sep (x :: xs) = x ++ (xs.map (fun y => sep ++ y)).flatten := by
  induction xs generalizing x with
  | nil => simp [List.intercalate]
  | cons y ys ih =>
    have hy := ih y
    simp only [List.intercalate, List.intersperse_cons_cons, List.flatten_cons] at *
    rw [hy]
    simp [List.append_assoc]

/-- `String.intercalate` agrees with `List.intercalate` on character
data. -/
theorem string_intercalate_data (s : String) (l : List String) :
    (String.intercalate s l).data = List.intercalate s.data (l.map String.data) := by
  cases l with
  | nil => rfl
  | cons a as =>
    show (String.intercalate.go a s as).data = _
    rw [intercalate_go_data, List.map_cons, list_intercalate_cons, List.map_map]
    rfl

/-- C9: PDF extraction joins the per-page texts with newlines in page
order; splitting the result on the separator recovers exactly the N
per-page texts (a page yielding no text contributing the empty string), so
the output is N newline-separated segments, order preserved. -/
theorem pdf_pages_joined (pages : List (Option String))
    (hne : pages ≠ [])
    (hnl : ∀ p ∈ pages, '\n' ∉ (p.getD "").data) :
    (extract_text_from_pdf pages).data.splitOn '\n' =
      pages.map (fun p => (p.getD "").data) ∧
    ((extract_text_from_pdf pages).data.splitOn '\n').length = pages.length := by
  have key : (extract_text_from_pdf pages).data.splitOn '\n' =
      pages.map (fun p => (p.getD "").data) := by
    rw [extract_text_from_pdf, string_intercalate_data, List.map_map]
    refine List.splitOn_intercalate _ '\n' ?_ ?_
    · intro l hl
      rw [List.mem_map] at hl
      obtain ⟨p, hp, rfl⟩ := hl
      exact hnl p hp
    · simpa using hne
  refine ⟨key, ?_⟩
  rw [key, List.length_map]

/-- Witness for C9 at a three-page PDF whose middle page yields no text. -/
theorem pdf_pages_joined_witness :
    (extract_text_from_pdf [some "a", none, some "b"]).data.splitOn '\n' =
      [some "a", none, some "b"].map (fun p => ((p.getD "") : String).data) ∧
    ((extract_text_from_pdf [some "a", none, some "b"]).data.splitOn '\n').length = 3 :=
  pdf_pages_joined [some "a", none, some "b"] (by decide) (by decide)

/-- The URL-extraction output exactly as claim C2 words it: the parts are
the title's text (when a title is present) and the texts of the
heading/paragraph/list-item elements in document order, each part
individually trimmed of whitespace, parts empty after trimming dropped,
joined by newlines. -/
def extract_text_claim (doc : List Node) : String :=
  let cleaned := scrubList ["script", "style", "noscript"] doc
  let titleParts : List String :=
    match findTitle cleaned with
    | some n => [getText n]
    | none => []
  let parts := (titleParts ++ (findAllList contentTags cleaned).map getText).map pyStrip
  String.intercalate "\n" (parts.filter (fun t => t ≠ ""))

/-- C2 counterexample: on the successfully fetched page
`<title>  Hi  </title>`, the code keeps the title text untrimmed
(`"  Hi  "`), while the claim's description trims every part (`"Hi"`), so
the claim as stated fails at this input. -/
theorem url_extraction_claim_counterexample :
    extract_text_from_url
        (FetchResult.success 200 [Node.elem "title" [Node.str "  Hi  "]]) ≠
      extract_text_claim [Node.elem "title" [Node.str "  Hi  "]] := by
  decide

/-- The URL-extraction output as amended: the title's text is appended
as-is (untrimmed) whenever the title element is truthy under Python's
`if soup.title:` test, i.e. has at least one child; each
heading/paragraph/list-item element contributes the concatenation of
its text fragments with each fragment stripped of whitespace (empty
fragments skipped), and element parts that are empty are dropped; parts
are joined by newlines. -/
def extract_text_amended (doc : List Node) : String :=
  let cleaned := scrubList ["script", "style", "noscript"] doc
  let titleParts : List String :=
    match findTitle cleaned with
    | some n => if nodeTruthy n then [getText n] else []
    | none => []
  let bodyParts :=
    ((findAllList contentTags cleaned).map
        (fun n => String.join (((nodeTexts n).map pyStrip).filter (fun t => t ≠ "")))).filter
      (fun t => t ≠ "")
  String.intercalate "\n" (titleParts ++ bodyParts)

/-- C2 amended: for every successfully fetched page, extraction returns
exactly the amended description's output. -/
theorem url_extraction_amended (status : Nat) (doc : List Node) (h : status < 400) :
    extract_text_from_url (FetchResult.success status doc) = extract_text_amended doc := by
  have hcond : ¬(400 ≤ status ∧ status ≤ 599) := fun hc => absurd hc.1 (Nat.not_le.mpr h)
  simp only [extract_text_from_url, if_neg hcond]
  rfl

/-- Witness for the amended C2 at a concrete fetched page. -/
theorem url_extraction_amended_witness :
    extract_text_from_url
        (FetchResult.success 200 [Node.elem "title" [Node.str "  Hi  "]]) =
      extract_text_amended [Node.elem "title" [Node.str "  Hi  "]] :=
  url_extraction_amended 200 [Node.elem "title" [Node.str "  Hi  "]] (by decide)

end Sdverse
